import Mathlib

set_option autoImplicit false

/-!
Verification development for the jp-live-ocr repository.

The repository is a Vue single-page app: `src/services/jpdbService.ts`
(vocabulary client for the jpdb HTTP API) and `src/views/HomeView.vue`
(camera capture, OCR, word overlays, dictionary panel).  The definitions
below are a shallow embedding of those functions:

* JavaScript strings are `String` / `List Char`; the regex class `\s` and
  `String.prototype.trim` use the set `jsWs`.
* JavaScript numbers are modelled by `JSNum`: an exact rational, an
  infinity, or NaN.  The computations verified here never round, so exact
  rationals are faithful; division by zero follows IEEE-754 (as JS does).
* The network is a parameter: a call's outcome is an `Except JpdbError`
  value handed to the function, and `makeRequest` additionally reports
  whether the fetch was reached (it throws before fetching when the key
  is absent).  `try`/`catch` becomes a `match` on that `Except`.
* The asynchronous `handleWordClick` is split at its `await` into a
  synchronous prefix and a completion step, so interleavings of two
  clicks can be replayed explicitly.
-/

/-! ## JavaScript string primitives -/

/-- Characters matched by the JavaScript regex class `\s`, which is also
the set stripped by `String.prototype.trim`. -/
def jsWs (c : Char) : Bool :=
  decide (c.toNat = 0x9) || decide (c.toNat = 0xa) || decide (c.toNat = 0xb) ||
  decide (c.toNat = 0xc) || decide (c.toNat = 0xd) || decide (c.toNat = 0x20) ||
  decide (c.toNat = 0xa0) || decide (c.toNat = 0x1680) ||
  (decide (0x2000 ≤ c.toNat) && decide (c.toNat ≤ 0x200a)) ||
  decide (c.toNat = 0x2028) || decide (c.toNat = 0x2029) ||
  decide (c.toNat = 0x202f) || decide (c.toNat = 0x205f) ||
  decide (c.toNat = 0x3000) || decide (c.toNat = 0xfeff)

/-- JavaScript `String.prototype.trim` on a character list. -/
def jsTrimChars (l : List Char) : List Char :=
  ((l.dropWhile jsWs).reverse.dropWhile jsWs).reverse

/-- JavaScript `String.prototype.trim`. -/
def jsTrim (s : String) : String :=
  String.mk (jsTrimChars s.data)

/-- JavaScript `text.split(/(\s+)/)` on a character list: the substrings
between maximal whitespace runs, with each captured run kept in place
(so the result alternates non-whitespace and whitespace segments, and
starts and ends with a possibly empty non-whitespace segment). -/
def splitCapWs : List Char → List (List Char)
  | [] => [[]]
  | c :: rest =>
    if jsWs c then
      match splitCapWs rest with
      | [] :: w :: t => [] :: (c :: w) :: t
      | gs => [] :: [c] :: gs
    else
      match splitCapWs rest with
      | g :: t => (c :: g) :: t
      | [] => [[c]]

/-- The predicate of the source's `.filter(word => word.trim().length > 0)`. -/
def trimNonEmpty (w : List Char) : Bool :=
  !(jsTrimChars w).isEmpty

/-! ## jpdbService.ts: data model -/

/-- The `card_state` union type of `jpdbService.ts`. -/
inductive CardState
  | known
  | learning
  | new
  | suspended
  | locked
deriving DecidableEq

/-- The `JpdbToken` interface. -/
structure JpdbToken where
  text : String
  reading : Option String := none
  part_of_speech : Option String := none
  meanings : Option (List String) := none
  card_state : Option CardState := none
  difficulty : Option Int := none
deriving DecidableEq

/-- The `JpdbParseResponse` interface. -/
structure JpdbParseResponse where
  tokens : List JpdbToken
deriving DecidableEq

/-- The `JpdbLookupResponse` interface. -/
structure JpdbLookupResponse where
  word : String
  reading : Option String := none
  meanings : List String := []
  part_of_speech : Option String := none
  frequency : Option Int := none
  card_state : Option CardState := none
  difficulty : Option Int := none
deriving DecidableEq

/-- The ways `makeRequest` can fail, from the spec's error taxonomy:
the missing-key throw, HTTP 401, another non-2xx status, a rejected
fetch, or a response body that does not parse. -/
inductive JpdbError
  | noApiKey
  | unauthorized
  | remoteError (status : Nat)
  | networkFailure
  | malformedResponse
deriving DecidableEq

/-- JavaScript truthiness of `this.apiKey : string | null`
(`null` and the empty string are falsy). -/
def keyPresent : Option String → Bool
  | none => false
  | some k => !k.isEmpty

/-- The body of a successful `/parse` response as `parseText` reads it:
`response.tokens` may be absent (the source writes `response.tokens || []`). -/
structure ParseApiResponse where
  tokens : Option (List JpdbToken) := none
deriving DecidableEq

/-- One element of `response.entries` as `lookupWord` reads it. -/
structure LookupEntry where
  reading : Option String := none
  meanings : Option (List String) := none
  part_of_speech : Option String := none
  frequency : Option Int := none
  card_state : Option CardState := none
  difficulty : Option Int := none
deriving DecidableEq

/-- The body of a successful `/lookup` response as `lookupWord` reads it:
`response.entries` may be absent. -/
structure LookupApiResponse where
  entries : Option (List LookupEntry) := none
deriving DecidableEq

/-! ## jpdbService.ts: operations -/

/-- The private `makeRequest`: it throws `noApiKey` before any fetch when
the credential is absent or empty; otherwise the outcome is the network's
(`remote`).  The second component records whether fetch was invoked. -/
def makeRequest {α : Type} (apiKey : Option String) (remote : Except JpdbError α) :
    Except JpdbError α × Bool :=
  if keyPresent apiKey then (remote, true) else (.error .noApiKey, false)

/-- The fallback branch of `parseText`:
`text.split(/(\s+)/).filter(word => word.trim().length > 0)`,
each word mapped to a token with `card_state: 'new'`. -/
def fallbackSplit (s : List Char) : List (List Char) :=
  (splitCapWs s).filter trimNonEmpty

/-- The tokens `parseText` builds in its catch branch. -/
def fallbackTokens (text : String) : List JpdbToken :=
  (fallbackSplit text.data).map fun w =>
    { text := String.mk w, card_state := some CardState.new }

/-- `parseText`: tries the `/parse` request and wraps `response.tokens || []`;
any thrown error (missing key included) is caught and the whitespace-split
fallback returned instead.  Second component: whether fetch was invoked. -/
def parseText (apiKey : Option String) (remote : Except JpdbError ParseApiResponse)
    (text : String) : JpdbParseResponse × Bool :=
  match makeRequest apiKey remote with
  | (.ok response, fetched) => ({ tokens := response.tokens.getD [] }, fetched)
  | (.error _, fetched) => ({ tokens := fallbackTokens text }, fetched)

/-- `lookupWord`: tries the `/lookup` request; with a non-empty
`response.entries` it builds a `JpdbLookupResponse` from the first entry,
otherwise returns `null`; any thrown error is caught and converted to
`null`. -/
def lookupWord (apiKey : Option String) (remote : Except JpdbError LookupApiResponse)
    (word : String) : Option JpdbLookupResponse :=
  match (makeRequest apiKey remote).1 with
  | .error _ => none
  | .ok response =>
    match response.entries with
    | some (entry :: _) =>
      some { word := word
             reading := entry.reading
             meanings := entry.meanings.getD []
             part_of_speech := entry.part_of_speech
             frequency := entry.frequency
             card_state := entry.card_state
             difficulty := entry.difficulty }
    | _ => none

/-- `getWordColorClass`: the switch over `cardState`, with `'new'` and the
default case both returning `'jpdb-new'`. -/
def getWordColorClass (cardState : Option String) : String :=
  if cardState = some "known" then "jpdb-known"
  else if cardState = some "learning" then "jpdb-learning"
  else if cardState = some "suspended" then "jpdb-suspended"
  else if cardState = some "locked" then "jpdb-locked"
  else "jpdb-new"

/-! ## JavaScript numbers for the overlay computation -/

/-- A JavaScript number as it arises in `getWordOverlayStyle`: an exact
finite value, an infinity, or NaN.  No computation verified here rounds,
so finite values are kept as exact rationals. -/
inductive JSNum
  | fin (q : ℚ)
  | posInf
  | negInf
  | nan
deriving DecidableEq

/-- JavaScript subtraction restricted to `JSNum`. -/
def jsub : JSNum → JSNum → JSNum
  | .fin a, .fin b => .fin (a - b)
  | .fin _, .posInf => .negInf
  | .fin _, .negInf => .posInf
  | .posInf, .fin _ => .posInf
  | .posInf, .negInf => .posInf
  | .negInf, .fin _ => .negInf
  | .negInf, .posInf => .negInf
  | _, _ => .nan

/-- JavaScript multiplication restricted to `JSNum`
(`0 * Infinity` is NaN). -/
def jmul : JSNum → JSNum → JSNum
  | .fin a, .fin b => .fin (a * b)
  | .fin a, .posInf => if a = 0 then .nan else if 0 < a then .posInf else .negInf
  | .fin a, .negInf => if a = 0 then .nan else if 0 < a then .negInf else .posInf
  | .posInf, .fin b => if b = 0 then .nan else if 0 < b then .posInf else .negInf
  | .negInf, .fin b => if b = 0 then .nan else if 0 < b then .negInf else .posInf
  | .posInf, .posInf => .posInf
  | .posInf, .negInf => .negInf
  | .negInf, .posInf => .negInf
  | .negInf, .negInf => .posInf
  | _, _ => .nan

/-- JavaScript division restricted to `JSNum`: a nonzero finite value
divided by zero is a signed infinity, `0 / 0` is NaN. -/
def jdiv : JSNum → JSNum → JSNum
  | .fin a, .fin b =>
    if b = 0 then (if a = 0 then .nan else if 0 < a then .posInf else .negInf)
    else .fin (a / b)
  | .fin _, .posInf => .fin 0
  | .fin _, .negInf => .fin 0
  | .posInf, .fin b => if 0 ≤ b then .posInf else .negInf
  | .negInf, .fin b => if 0 ≤ b then .negInf else .posInf
  | _, _ => .nan

/-! ## HomeView.vue: data model and handlers -/

/-- A Tesseract bounding box, in source-image pixel space. -/
structure BBox where
  x0 : ℚ
  y0 : ℚ
  x1 : ℚ
  y1 : ℚ
deriving DecidableEq

/-- The elements of `ocrWords`. -/
structure OcrWord where
  text : String
  bbox : BBox
  confidence : ℚ
deriving DecidableEq

/-- The reactive state of `HomeView.vue` touched by the claims, with the
component's initial values as defaults. -/
structure HomeState where
  capturedImage : String := ""
  ocrResult : String := ""
  ocrWords : List OcrWord := []
  jpdbTokens : List JpdbToken := []
  selectedWord : String := ""
  showDictionary : Bool := false
  selectedWordInfo : Option JpdbLookupResponse := none
  isLookingUp : Bool := false
deriving DecidableEq

/-- The "Take New Photo" click handler:
`capturedImage = ''; ocrResult = ''; ocrWords = [];`
(note that `jpdbTokens` is not assigned). -/
def takeNewPhoto (s : HomeState) : HomeState :=
  { s with capturedImage := "", ocrResult := "", ocrWords := [] }

/-- The synchronous prefix of `handleWordClick`, up to its `await`:
sets `selectedWord` to the trimmed word; when that is non-empty, opens the
panel, resets `selectedWordInfo`, and — when a key is configured — sets
`isLookingUp` and issues a lookup for `selectedWord.value`.  The second
component is the word the in-flight lookup was issued for, if any. -/
def handleWordClickStart (apiKeyConfigured : Bool) (word : String) (s : HomeState) :
    HomeState × Option String :=
  let s1 := { s with selectedWord := jsTrim word }
  if (jsTrim word).isEmpty then (s1, none)
  else
    let s2 := { s1 with showDictionary := true, selectedWordInfo := none }
    if apiKeyConfigured then ({ s2 with isLookingUp := true }, some (jsTrim word))
    else (s2, none)

/-- The completion of an in-flight lookup inside `handleWordClick`:
`selectedWordInfo.value = wordInfo` with no comparison against the current
selection, then `finally { isLookingUp.value = false }`. -/
def handleWordClickResume (wordInfo : Option JpdbLookupResponse) (s : HomeState) :
    HomeState :=
  { s with selectedWordInfo := wordInfo, isLookingUp := false }

/-- `closeDictionary`. -/
def closeDictionary (s : HomeState) : HomeState :=
  { s with showDictionary := false, selectedWord := "", selectedWordInfo := none }

/-- The size fields of the displayed `<img>` element that
`getWordOverlayStyle` reads. -/
structure ImgDims where
  clientWidth : ℚ
  clientHeight : ℚ
  naturalWidth : ℚ
  naturalHeight : ℚ
deriving DecidableEq

/-- The numeric content of the style record `getWordOverlayStyle` returns
(the `px` string formatting and the constant `position: 'absolute'` entry
are not modelled). -/
structure OverlayStyle where
  left : JSNum
  top : JSNum
  width : JSNum
  height : JSNum
deriving DecidableEq

/-- `getWordOverlayStyle`: returns the empty style (`none`) when no image
element is mounted; otherwise scales the bounding box by
`clientWidth / naturalWidth` and `clientHeight / naturalHeight` with no
guard on the divisors. -/
def getWordOverlayStyle (img : Option ImgDims) (bbox : BBox) : Option OverlayStyle :=
  match img with
  | none => none
  | some i =>
    let scaleX := jdiv (.fin i.clientWidth) (.fin i.naturalWidth)
    let scaleY := jdiv (.fin i.clientHeight) (.fin i.naturalHeight)
    some { left := jmul (.fin bbox.x0) scaleX
           top := jmul (.fin bbox.y0) scaleY
           width := jmul (jsub (.fin bbox.x1) (.fin bbox.x0)) scaleX
           height := jmul (jsub (.fin bbox.y1) (.fin bbox.y0)) scaleY }

/-! ## Concrete scenario states -/

/-- A state as after capturing and OCR-ing a first photo with a key
configured: OCR text, one overlay word and one vocabulary token derived
from that image. -/
def staleSessionState : HomeState :=
  { capturedImage := "data:image/png;base64,AAAA"
    ocrResult := "猫"
    ocrWords := [{ text := "猫", bbox := ⟨0, 0, 10, 10⟩, confidence := 90 }]
    jpdbTokens := [{ text := "猫", card_state := some CardState.known }] }

/-- The state after clicking 犬 with a key configured, from the initial
state: its lookup is now in flight. -/
def afterFirstClick : HomeState :=
  (handleWordClickStart true "犬" {}).1

/-- The state after then clicking 猫 while the 犬 lookup is still in
flight. -/
def afterSecondClick : HomeState :=
  (handleWordClickStart true "猫" afterFirstClick).1

/-- The late-arriving result of the 犬 lookup. -/
def dogLookupResult : JpdbLookupResponse :=
  { word := "犬", meanings := ["dog"] }

/-! ## Helper lemmas -/

/-- Every token the fallback branch builds carries `card_state: 'new'`. -/
theorem fallbackTokens_card_state (text : String) :
    ∀ t ∈ fallbackTokens text, t.card_state = some CardState.new := by
  intro t ht
  simp only [fallbackTokens, List.mem_map] at ht
  obtain ⟨w, _, rfl⟩ := ht
  rfl

/-! ## Claims -/

/-- C1: for every input text, whenever the remote segmentation call fails
for any reason (missing key, network rejection, non-2xx status, malformed
response), `parseText` returns the whitespace-run fallback tokenization
with every token tagged `card_state = 'new'`, and no error reaches the
caller (the result type is total: the catch converts every `Except.error`
into the fallback). -/
theorem parseText_fallback_on_failure (apiKey : Option String)
    (remote : Except JpdbError ParseApiResponse) (text : String)
    (h : keyPresent apiKey = false ∨ ∃ e, remote = Except.error e) :
    (parseText apiKey remote text).1.tokens = fallbackTokens text ∧
    ∀ t ∈ (parseText apiKey remote text).1.tokens, t.card_state = some CardState.new := by
  have hmain : (parseText apiKey remote text).1.tokens = fallbackTokens text := by
    rcases h with h | ⟨e, rfl⟩
    · simp [parseText, makeRequest, h]
    · cases hk : keyPresent apiKey <;> simp [parseText, makeRequest, hk]
  refine ⟨hmain, ?_⟩
  rw [hmain]
  exact fallbackTokens_card_state text

/-- Witness for C1: a configured key with a rejecting network still yields
the fallback tokens. -/
theorem parseText_fallback_on_failure_witness :
    (parseText (some "key") (Except.error JpdbError.networkFailure) "こんにちは 世界").1.tokens
      = fallbackTokens "こんにちは 世界" :=
  (parseText_fallback_on_failure (some "key") (Except.error JpdbError.networkFailure)
    "こんにちは 世界" (Or.inr ⟨JpdbError.networkFailure, rfl⟩)).1

/-- C2: with no credential, `parseText "hello world"` returns exactly the
tokens "hello" then "world", each tagged `card_state = 'new'`, and the
fetch is never reached (second component `false`), whatever the network
would have answered. -/
theorem parseText_no_key_hello_world (remote : Except JpdbError ParseApiResponse) :
    parseText none remote "hello world" =
      ({ tokens := [{ text := "hello", card_state := some CardState.new },
                    { text := "world", card_state := some CardState.new }] }, false) := rfl

/-- C3: the "Take New Photo" handler clears the captured image, the OCR
text and the OCR word boxes, but leaves the derived vocabulary tokens
(`jpdbTokens`) in state: after a retake the stale token derived from the
previous image is still present. -/
theorem takeNewPhoto_keeps_stale_tokens :
    (takeNewPhoto staleSessionState).capturedImage = "" ∧
    (takeNewPhoto staleSessionState).ocrResult = "" ∧
    (takeNewPhoto staleSessionState).ocrWords = [] ∧
    (takeNewPhoto staleSessionState).jpdbTokens =
      [{ text := "猫", card_state := some CardState.known }] :=
  ⟨rfl, rfl, rfl, rfl⟩

/-- C4: with an image element whose natural size is still 0 (not yet
loaded), `getWordOverlayStyle` performs the divisions unguarded: the
computed style is NaN for left and top and Infinity for width and height,
not a guarded well-defined rectangle. -/
theorem getWordOverlayStyle_unloaded_image_nan :
    getWordOverlayStyle
      (some { clientWidth := 200
              clientHeight := 150
              naturalWidth := 0
              naturalHeight := 0 })
      { x0 := 0, y0 := 0, x1 := 100, y1 := 50 } =
    some { left := JSNum.nan, top := JSNum.nan
           width := JSNum.posInf, height := JSNum.posInf } := by
  norm_num [getWordOverlayStyle, jdiv, jmul, jsub]

/-- C5: replaying the interleaving "click 犬, click 猫, then the 犬
lookup completes": the completion overwrites `selectedWordInfo` with the
犬 result although `selectedWord` is now 猫 — the stale in-flight
response is not discarded. -/
theorem stale_lookup_clobbers_newer_selection :
    (handleWordClickStart true "犬" ({} : HomeState)).2 = some "犬" ∧
    afterSecondClick.selectedWord = "猫" ∧
    (handleWordClickResume (some dogLookupResult) afterSecondClick).selectedWord = "猫" ∧
    (handleWordClickResume (some dogLookupResult) afterSecondClick).selectedWordInfo =
      some dogLookupResult ∧
    dogLookupResult.word ≠ afterSecondClick.selectedWord := by
  refine ⟨rfl, rfl, rfl, rfl, ?_⟩
  decide

/-- C6: `lookupWord` returns `null` and raises nothing whenever the key is
missing, the request fails in any way, or the response carries no entry;
the catch converts every thrown error into `null`. -/
theorem lookupWord_null_on_failure_or_no_entry (apiKey : Option String)
    (remote : Except JpdbError LookupApiResponse) (word : String) :
    (keyPresent apiKey = false → lookupWord apiKey remote word = none) ∧
    (∀ e, remote = Except.error e → lookupWord apiKey remote word = none) ∧
    (∀ response, remote = Except.ok response → response.entries.getD [] = [] →
      lookupWord apiKey remote word = none) := by
  refine ⟨?_, ?_, ?_⟩
  · intro h
    simp [lookupWord, makeRequest, h]
  · rintro e rfl
    cases hk : keyPresent apiKey <;> simp [lookupWord, makeRequest, hk]
  · rintro response rfl hent
    rcases hresp : response.entries with _ | ⟨_ | ⟨entry, es⟩⟩
    · cases hk : keyPresent apiKey <;> simp [lookupWord, makeRequest, hk, hresp]
    · cases hk : keyPresent apiKey <;> simp [lookupWord, makeRequest, hk, hresp]
    · rw [hresp] at hent
      simp at hent

/-- Witness for C6: lookup of 犬 is `null` with no key, with a 401, and
with an entry-less response. -/
theorem lookupWord_null_on_failure_or_no_entry_witness :
    lookupWord none (Except.error JpdbError.noApiKey) "犬" = none ∧
    lookupWord (some "key") (Except.error JpdbError.unauthorized) "犬" = none ∧
    lookupWord (some "key") (Except.ok {}) "犬" = none :=
  ⟨(lookupWord_null_on_failure_or_no_entry none (Except.error JpdbError.noApiKey) "犬").1 rfl,
   (lookupWord_null_on_failure_or_no_entry (some "key") (Except.error JpdbError.unauthorized)
     "犬").2.1 JpdbError.unauthorized rfl,
   (lookupWord_null_on_failure_or_no_entry (some "key") (Except.ok {}) "犬").2.2 {} rfl rfl⟩

/-- C7: `getWordColorClass` is total: the five known card states map to
their presentation tags, and every other input — `undefined` included —
maps to "jpdb-new". -/
theorem getWordColorClass_cases (c : Option String)
    (h : c ∉ [some "known", some "learning", some "suspended", some "locked"]) :
    getWordColorClass (some "known") = "jpdb-known" ∧
    getWordColorClass (some "learning") = "jpdb-learning" ∧
    getWordColorClass (some "new") = "jpdb-new" ∧
    getWordColorClass (some "suspended") = "jpdb-suspended" ∧
    getWordColorClass (some "locked") = "jpdb-locked" ∧
    getWordColorClass none = "jpdb-new" ∧
    getWordColorClass c = "jpdb-new" := by
  simp only [List.mem_cons, List.not_mem_nil, or_false, not_or] at h
  obtain ⟨h1, h2, h3, h4⟩ := h
  refine ⟨rfl, rfl, rfl, rfl, rfl, rfl, ?_⟩
  simp [getWordColorClass, h1, h2, h3, h4]

/-- Witness for C7: an unknown state string maps to "jpdb-new". -/
theorem getWordColorClass_cases_witness :
    getWordColorClass (some "kanji") = "jpdb-new" :=
  (getWordColorClass_cases (some "kanji") (by decide)).2.2.2.2.2.2

/-- C8: with a loaded image (nonzero natural size), the overlay rectangle
is the bounding box scaled by the displayed/natural ratio independently
per axis. -/
theorem getWordOverlayStyle_scales_per_axis (img : ImgDims) (bbox : BBox)
    (hw : img.naturalWidth ≠ 0) (hh : img.naturalHeight ≠ 0) :
    getWordOverlayStyle (some img) bbox =
      some { left := JSNum.fin (bbox.x0 * (img.clientWidth / img.naturalWidth))
             top := JSNum.fin (bbox.y0 * (img.clientHeight / img.naturalHeight))
             width := JSNum.fin ((bbox.x1 - bbox.x0) * (img.clientWidth / img.naturalWidth))
             height := JSNum.fin ((bbox.y1 - bbox.y0) * (img.clientHeight / img.naturalHeight)) } := by
  simp [getWordOverlayStyle, jdiv, jmul, jsub, hw, hh]

/-- Witness for C8: the spec's two boxes over an image rendered at half
its natural size produce overlays at half the coordinates and half the
dimensions. -/
theorem getWordOverlayStyle_scales_per_axis_witness :
    getWordOverlayStyle
        (some { clientWidth := 200, clientHeight := 150
                naturalWidth := 400, naturalHeight := 300 })
        { x0 := 0, y0 := 0, x1 := 100, y1 := 50 } =
      some { left := JSNum.fin 0, top := JSNum.fin 0
             width := JSNum.fin 50, height := JSNum.fin 25 } ∧
    getWordOverlayStyle
        (some { clientWidth := 200, clientHeight := 150
                naturalWidth := 400, naturalHeight := 300 })
        { x0 := 110, y0 := 0, x1 := 180, y1 := 50 } =
      some { left := JSNum.fin 55, top := JSNum.fin 0
             width := JSNum.fin 35, height := JSNum.fin 25 } := by
  constructor
  · rw [getWordOverlayStyle_scales_per_axis _ _ (by decide) (by decide)]
    norm_num
  · rw [getWordOverlayStyle_scales_per_axis _ _ (by decide) (by decide)]
    norm_num

/-- C10: a click on a word that trims to the empty string sets
`selectedWord` to the empty string but leaves the panel flag and the
lookup result untouched and issues no lookup. -/
theorem handleWordClick_blank_word (apiKeyConfigured : Bool) (word : String)
    (s : HomeState) (h : jsTrim word = "") :
    (handleWordClickStart apiKeyConfigured word s).1.selectedWord = "" ∧
    (handleWordClickStart apiKeyConfigured word s).1.showDictionary = s.showDictionary ∧
    (handleWordClickStart apiKeyConfigured word s).1.selectedWordInfo = s.selectedWordInfo ∧
    (handleWordClickStart apiKeyConfigured word s).2 = none := by
  have he : handleWordClickStart apiKeyConfigured word s =
      ({ s with selectedWord := "" }, none) := by
    have hre : ("" : String).isEmpty = true := rfl
    simp [handleWordClickStart, h, hre]
  rw [he]
  exact ⟨rfl, rfl, rfl, rfl⟩

/-- Witness for C10: clicking a whitespace-only word from the initial
state changes nothing but `selectedWord`. -/
theorem handleWordClick_blank_word_witness :
    (handleWordClickStart true "  " ({} : HomeState)).1.selectedWord = "" ∧
    (handleWordClickStart true "  " ({} : HomeState)).1.showDictionary =
      ({} : HomeState).showDictionary ∧
    (handleWordClickStart true "  " ({} : HomeState)).1.selectedWordInfo =
      ({} : HomeState).selectedWordInfo ∧
    (handleWordClickStart true "  " ({} : HomeState)).2 = none :=
  handleWordClick_blank_word true "  " {} (by decide)

/-! ## Structure of the whitespace-capturing split (for C9) -/

/-- Shape of the tail of a `splitCapWs` result: non-empty whitespace runs
and non-whitespace segments alternate. -/
inductive WsAlt : List (List Char) → Prop
  | nil : WsAlt []
  | cons {w n : List Char} {t : List (List Char)}
      (hne : w ≠ [])
      (hws : ∀ c ∈ w, jsWs c = true)
      (hn : ∀ c ∈ n, jsWs c = false)
      (ht : WsAlt t) : WsAlt (w :: n :: t)

/-- Inversion for `WsAlt` on a cons. -/
theorem wsAlt_cons_inv {w : List Char} {t : List (List Char)} (h : WsAlt (w :: t)) :
    w ≠ [] ∧ (∀ c ∈ w, jsWs c = true) ∧
    ∃ n t2, t = n :: t2 ∧ (∀ c ∈ n, jsWs c = false) ∧ WsAlt t2 := by
  cases h with
  | cons hne hws hn ht => exact ⟨hne, hws, _, _, rfl, hn, ht⟩

/-- Every element of the tail of a `WsAlt` list is all-whitespace or
all-non-whitespace. -/
theorem wsAlt_mem {t : List (List Char)} (ht : WsAlt t) {w : List Char} (hw : w ∈ t) :
    (∀ c ∈ w, jsWs c = true) ∨ (∀ c ∈ w, jsWs c = false) := by
  induction ht with
  | nil => simp at hw
  | cons hne hws hn ht2 ih =>
    rcases List.mem_cons.mp hw with rfl | hw2
    · exact Or.inl hws
    · rcases List.mem_cons.mp hw2 with rfl | hw3
      · exact Or.inr hn
      · exact ih hw3

/-- The split always yields a leading non-whitespace segment followed by
an alternation of whitespace runs and non-whitespace segments. -/
theorem splitCapWs_shape (s : List Char) :
    ∃ g t, splitCapWs s = g :: t ∧ (∀ c ∈ g, jsWs c = false) ∧ WsAlt t := by
  induction s with
  | nil => exact ⟨[], [], rfl, by simp, WsAlt.nil⟩
  | cons c rest ih =>
    obtain ⟨g, t, hsplit, hg, ht⟩ := ih
    by_cases hc : jsWs c = true
    · cases g with
      | cons g0 g1 =>
        refine ⟨[], [c] :: (g0 :: g1) :: t, ?_, by simp, ?_⟩
        · simp only [splitCapWs, hc, if_true, hsplit]
        · exact WsAlt.cons (by simp) (by simpa using hc) hg ht
      | nil =>
        cases t with
        | nil =>
          refine ⟨[], [c] :: [] :: [], ?_, by simp, ?_⟩
          · simp only [splitCapWs, hc, if_true, hsplit]
          · exact WsAlt.cons (by simp) (by simpa using hc) (by simp) WsAlt.nil
        | cons w t1 =>
          obtain ⟨hne, hws, n, t2, rfl, hn, ht2⟩ := wsAlt_cons_inv ht
          refine ⟨[], (c :: w) :: n :: t2, ?_, by simp, ?_⟩
          · simp only [splitCapWs, hc, if_true, hsplit]
          · refine WsAlt.cons (by simp) ?_ hn ht2
            intro d hd
            rcases List.mem_cons.mp hd with rfl | hd2
            · exact hc
            · exact hws d hd2
    · have hc2 : jsWs c = false := by simpa using hc
      refine ⟨c :: g, t, ?_, ?_, ht⟩
      · simp only [splitCapWs, hc2, Bool.false_eq_true, if_false, hsplit]
      · intro d hd
        rcases List.mem_cons.mp hd with rfl | hd2
        · exact hc2
        · exact hg d hd2

/-- Joining the kept segments recovers exactly the non-whitespace
characters of the input, in order. -/
theorem join_filter_splitCapWs (s : List Char) :
    ((splitCapWs s).filter (fun w => w.any fun c => !jsWs c)).flatten
      = s.filter fun c => !jsWs c := by
  induction s with
  | nil => simp [splitCapWs]
  | cons c rest ih =>
    obtain ⟨g, t, hsplit, hg, ht⟩ := splitCapWs_shape rest
    by_cases hc : jsWs c = true
    · cases g with
      | cons g0 g1 =>
        rw [hsplit] at ih
        simp only [splitCapWs, hc, if_true, hsplit]
        simpa [List.filter_cons, hc] using ih
      | nil =>
        cases t with
        | nil =>
          rw [hsplit] at ih
          simp only [splitCapWs, hc, if_true, hsplit]
          simpa [List.filter_cons, hc] using ih
        | cons w t1 =>
          obtain ⟨hne, hws, n, t2, rfl, hn, ht2⟩ := wsAlt_cons_inv ht
          have hw0 : (w.any fun d => !jsWs d) = false := by
            rw [List.any_eq_false]
            intro d hd
            simp [hws d hd]
          rw [hsplit] at ih
          simp only [splitCapWs, hc, if_true, hsplit]
          simp only [List.filter_cons, List.any_nil, List.any_cons, hc, hw0, Bool.not_true,
            Bool.or_false, Bool.false_or, if_false] at ih ⊢
          simpa [List.filter_cons, hc, hw0] using ih
    · have hc2 : jsWs c = false := by simpa using hc
      cases g with
      | nil =>
        rw [hsplit] at ih
        simp only [splitCapWs, hc2, Bool.false_eq_true, if_false, hsplit]
        simp only [List.filter_cons, List.any_nil, List.any_cons, hc2, Bool.not_false,
          Bool.true_or, if_true, List.flatten_cons] at ih ⊢
        simpa [List.filter_cons, hc2] using ih
      | cons g0 g1 =>
        have hq : jsWs g0 = false := hg g0 (by simp)
        rw [hsplit] at ih
        simp only [splitCapWs, hc2, Bool.false_eq_true, if_false, hsplit]
        simp only [List.filter_cons, List.any_cons, hc2, hq, Bool.not_false, Bool.true_or,
          if_true, List.flatten_cons] at ih ⊢
        simp [List.filter_cons, hc2, hq, ih]

/-- The filter predicate of the source, `word.trim().length > 0`, agrees
with "contains a non-whitespace character". -/
theorem trimNonEmpty_eq_any (w : List Char) :
    trimNonEmpty w = w.any fun c => !jsWs c := by
  cases hb : w.any fun c => !jsWs c with
  | false =>
    have hall : ∀ c ∈ w, jsWs c = true := by
      intro c hc
      have := (List.any_eq_false.mp hb) c hc
      simpa using this
    have hdrop : w.dropWhile jsWs = [] := List.dropWhile_eq_nil_iff.mpr hall
    simp [trimNonEmpty, jsTrimChars, hdrop]
  | true =>
    obtain ⟨c, hc, hcq⟩ := List.any_eq_true.mp hb
    have hcw : jsWs c = false := by simpa using hcq
    have hc1 : c ∈ w.dropWhile jsWs := by
      rcases List.mem_append.mp
          (by rw [List.takeWhile_append_dropWhile]; exact hc :
            c ∈ w.takeWhile jsWs ++ w.dropWhile jsWs) with h1 | h2
      · exact absurd (List.mem_takeWhile_imp h1) (by simp [hcw])
      · exact h2
    have hc2 : c ∈ ((w.dropWhile jsWs).reverse.dropWhile jsWs).reverse := by
      rw [List.mem_reverse]
      rcases List.mem_append.mp
          (by rw [List.takeWhile_append_dropWhile]
              exact List.mem_reverse.mpr hc1 :
            c ∈ (w.dropWhile jsWs).reverse.takeWhile jsWs ++
              (w.dropWhile jsWs).reverse.dropWhile jsWs) with h1 | h2
      · exact absurd (List.mem_takeWhile_imp h1) (by simp [hcw])
      · exact h2
    have hne : jsTrimChars w ≠ [] := by
      intro hnil
      rw [jsTrimChars] at hnil
      rw [hnil] at hc2
      simp at hc2
    simp [trimNonEmpty, List.isEmpty_iff, hne]

/-- The kept segments are exactly those with a non-whitespace character. -/
theorem fallbackSplit_eq_filter_any (s : List Char) :
    fallbackSplit s = (splitCapWs s).filter fun w => w.any fun c => !jsWs c := by
  unfold fallbackSplit
  exact List.filter_congr fun w _ => trimNonEmpty_eq_any w

/-- Concatenating the fallback segments recovers the input's
non-whitespace characters, in order. -/
theorem fallbackSplit_flatten (s : List Char) :
    (fallbackSplit s).flatten = s.filter fun c => !jsWs c := by
  rw [fallbackSplit_eq_filter_any, join_filter_splitCapWs]

/-- Every fallback segment is non-empty and free of whitespace. -/
theorem fallbackSplit_mem (s : List Char) (w : List Char) (hw : w ∈ fallbackSplit s) :
    w ≠ [] ∧ ∀ c ∈ w, jsWs c = false := by
  rw [fallbackSplit_eq_filter_any] at hw
  rw [List.mem_filter] at hw
  obtain ⟨hmem, hkeep⟩ := hw
  obtain ⟨c, hc, hcq⟩ := List.any_eq_true.mp hkeep
  obtain ⟨g, t, hsplit, hg, ht⟩ := splitCapWs_shape s
  rw [hsplit] at hmem
  have hcases : (∀ d ∈ w, jsWs d = true) ∨ (∀ d ∈ w, jsWs d = false) := by
    rcases List.mem_cons.mp hmem with rfl | hmem2
    · exact Or.inr hg
    · exact wsAlt_mem ht hmem2
  rcases hcases with hall | hall
  · exact absurd (hall c hc) (by simpa using hcq)
  · refine ⟨?_, hall⟩
    rintro rfl
    simp at hc

/-- C9: for non-empty input text, the fallback tokenization splits on
whitespace runs and discards empty segments: concatenating the tokens'
texts yields exactly the input's non-whitespace characters in source
order (no character lost or duplicated), and every token is non-empty
and whitespace-free. -/
theorem fallback_split_preserves_characters (text : String) (h : text ≠ "") :
    ((fallbackTokens text).map fun t => t.text.data).flatten
      = text.data.filter (fun c => !jsWs c) ∧
    ∀ t ∈ fallbackTokens text, t.text.data ≠ [] ∧ ∀ c ∈ t.text.data, jsWs c = false := by
  constructor
  · have hmap : ∀ l : List (List Char),
        ((l.map fun w =>
            ({ text := String.mk w, card_state := some CardState.new } : JpdbToken)).map
          fun t => t.text.data) = l := by
      intro l
      induction l with
      | nil => rfl
      | cons a l2 ih => simpa using ih
    rw [fallbackTokens, hmap, fallbackSplit_flatten]
  · intro t ht
    simp only [fallbackTokens, List.mem_map] at ht
    obtain ⟨w, hwmem, rfl⟩ := ht
    simpa using fallbackSplit_mem text.data w hwmem

/-- Witness for C9 at the spec's OCR example text. -/
theorem fallback_split_preserves_characters_witness :
    (((fallbackTokens "こんにちは 世界").map fun t => t.text.data).flatten
      = "こんにちは 世界".data.filter (fun c => !jsWs c)) ∧
    ∀ t ∈ fallbackTokens "こんにちは 世界", t.text.data ≠ [] ∧
      ∀ c ∈ t.text.data, jsWs c = false :=
  fallback_split_preserves_characters "こんにちは 世界" (by decide)
